import Mathlib

/-!
Verification development for the Python syntax highlighter in
`src/unreal_script_editor/codeEditor/highlighter/pyHighlight.py`.

The file shallowly embeds the highlighter: `QRegExp` patterns become an
executable backtracking regex matcher over `List Char`, the per-line
multi-line-region algorithm `highlightMultilineBlock` becomes `mlLoop`
and `highlightMultilineBlock`, and the per-line driver `highlightBlock`
becomes `highlightBlock`.

Modelling notes, fixed throughout:

* A line of text is a `List Char` (a Qt block's text, no newline).
* Qt's `QSyntaxHighlighter` per-block integer state is threaded
  explicitly.  `previousBlockState()` is the parameter `prev`.
  `setCurrentBlockState(s)` / `currentBlockState()` read and write the
  current block's user state; at the start of `highlightBlock` Qt does
  NOT reset that value, so it still holds whatever the block's state was
  before this call (`-1` for a freshly created block).  That entry value
  is the parameter `stale`, and the current value is threaded as `cur`.
* `setFormat(start, count, fmt)` appends a `Span`.  Qt clamps the
  applied range to `[start, min (start+count) len)` and ignores calls
  with `start ≥ len`; the spans are recorded as emitted, and the
  clamping is applied by `fmtAt`, which computes the visible style of a
  character after all `setFormat` calls (later calls override earlier
  ones).
* `QRegExp.indexIn(text, off)` returns the smallest match position
  `≥ off` (or `-1`, modelled as `none`); `matchedLength`, `pos(nth)` and
  `cap(nth)` are the usual QRegExp accessors.  The two multi-line
  patterns are the literals `"""` and `'''`, modelled by `litIndexIn`.
* The `caseSensitive` attribute read by `buildRules` is never assigned
  anywhere in the file (see `pythonHighlighterInit` below); the rules
  are modelled as compiled case-sensitively, which is the value the
  conditional on line 133 produces for a truthy flag.
-/

/-- The style table keys of `STYLES` (string literals in the source);
only their identity matters to the highlighter. -/
inductive Style where
  | keyword
  | operator
  | brace
  | defName
  | clsName
  | str
  | strBlock
  | comment
  | clsSelf
  | priv
  | numbers
  deriving DecidableEq, Repr

/-- One `setFormat(offset, length, style)` call. -/
structure Span where
  offset : Nat
  len : Nat
  style : Style
  deriving DecidableEq, Repr

/-- Characters used in patterns that are awkward as literals. -/
def dqc : Char := Char.ofNat 34

def sqc : Char := Char.ofNat 39

def bsc : Char := Char.ofNat 92

def lbc : Char := Char.ofNat 123

def rbc : Char := Char.ofNat 125

/-- `pat` occurs in `text` as a contiguous block starting at `i`. -/
def litAt (pat text : List Char) (i : Nat) : Bool :=
  match pat with
  | [] => true
  | c :: cs =>
    match text.get? i with
    | some d => c = d && litAt cs text (i + 1)
    | none => false

/-- Search loop behind `litIndexIn`, structurally recursive on a fuel
that bounds the remaining candidate positions.  With the fuel chosen by
`litIndexIn` the loop always runs to its natural end: the recursion
advances `i` by 1 per unit of fuel, and once `text.length < i` the
first test stops the search anyway. -/
def litIndexInAux (pat text : List Char) : Nat → Nat → Option Nat
  | 0, _ => none
  | fuel + 1, i =>
    if text.length < i + pat.length then none
    else if litAt pat text i then some i
    else litIndexInAux pat text fuel (i + 1)

/-- `QRegExp.indexIn(text, i)` for a literal pattern: the least position
`j ≥ i` where `pat` occurs in `text`, if any (`none` also when the
offset is past the end of the text, as for `QRegExp`). -/
def litIndexIn (pat text : List Char) (i : Nat) : Option Nat :=
  litIndexInAux pat text (text.length + 1 - i) i

/-- One compiled multi-line rule: the compiled start and end `QRegExp`
(here always literal delimiters), the region state tag and the style,
as stored by `buildRules` in `self.blockRules`. -/
structure BlockRule where
  startPat : List Char
  endPat : List Char
  state : Int
  style : Style
  deriving DecidableEq, Repr

/-- Accumulated effect of the `while start_index >= 0` loop of
`highlightMultilineBlock` (lines 182-201): the `setFormat` calls, the
final current-block state, and a ghost trace recording, for each loop
iteration, the pair (start_index, position the end-pattern search began
at).  The trace adds no behaviour; it only exposes where each
`end.indexIn(text, start_index + add)` call started. -/
structure MLAcc where
  spans : List Span
  trace : List (Nat × Nat)
  state : Int
  deriving DecidableEq, Repr

/-- The `while start_index >= 0` loop of `highlightMultilineBlock`,
lines 182-201 of the source.  `add` is the fixed skip length computed
before the loop (0 if resumed, the start match's length otherwise) and
is never modified by the loop, exactly as in the source.  `cur` is the
current block state on entry (only observable if the loop body never
runs).  The fuel is an upper bound on the iteration count; every closed
iteration advances the next start search by at least `endPat.length`
and an open iteration is always the last, so `text.length + 2` fuel
(as used by `highlightMultilineBlock` below) is never exhausted. -/
def mlLoop (text sPat ePat : List Char) (inSt : Int) (sty : Style) (add : Nat) :
    Nat → Option Nat → Int → MLAcc
  | _, none, cur => ⟨[], [], cur⟩
  | 0, some _, cur => ⟨[], [], cur⟩
  | fuel + 1, some s, _ =>
    match litIndexIn ePat text (s + add) with
    | some e =>
      -- `end_index >= add`: the region closes; length includes `add`.
      let L := e - s + add + ePat.length
      let r := mlLoop text sPat ePat inSt sty add fuel (litIndexIn sPat text (s + L)) 0
      ⟨⟨s, L, sty⟩ :: r.spans, (s, s + add) :: r.trace, r.state⟩
    | none =>
      -- end delimiter absent: region stays open to end of line.
      let L := text.length - s + add
      let r := mlLoop text sPat ePat inSt sty add fuel (litIndexIn sPat text (s + L)) inSt
      ⟨⟨s, L, sty⟩ :: r.spans, (s, s + add) :: r.trace, r.state⟩

/-- Result of one `highlightMultilineBlock` call: the spans it emitted,
the current block state when it returned, the ghost trace, and its
return value `currentBlockState() == in_state`. -/
structure MLOut where
  spans : List Span
  trace : List (Nat × Nat)
  state : Int
  stillOpen : Bool
  deriving DecidableEq, Repr

/-- `PythonHighlighter.highlightMultilineBlock` (lines 155-204).
`prev` is `previousBlockState()`, `cur` the current block state at the
moment of the call (the stale per-block value if nothing set it yet).
If resumed, the scan starts at offset 0 with `add = 0`; otherwise the
start delimiter is searched and `add` is its matched length.  The
return value compares the current state after the loop with
`in_state` - when the loop never ran this reads the incoming `cur`. -/
def highlightMultilineBlock (prev : Int) (text : List Char) (r : BlockRule)
    (cur : Int) : MLOut :=
  let a : MLAcc :=
    if prev = r.state then
      mlLoop text r.startPat r.endPat r.state r.style 0 (text.length + 2) (some 0) cur
    else
      match litIndexIn r.startPat text 0 with
      | none => ⟨[], [], cur⟩
      | some s =>
        mlLoop text r.startPat r.endPat r.state r.style r.startPat.length
          (text.length + 2) (some s) cur
  ⟨a.spans, a.trace, a.state, a.state == r.state⟩

/-- The `for start, end, idx, fmt in self.blockRules` loop of
`highlightBlock` (lines 210-214): each rule is processed in order and
the loop breaks as soon as a call returns `True`.  Returns the spans
emitted so far, the current block state, and whether a rule returned
`True` (i.e. `matched_multiline`). -/
def mlDispatch (prev : Int) (text : List Char) :
    List BlockRule → Int → List Span × Int × Bool
  | [], cur => ([], cur, false)
  | r :: rs, cur =>
    let m := highlightMultilineBlock prev text r cur
    if m.stillOpen then (m.spans, m.state, true)
    else
      let d := mlDispatch prev text rs m.state
      (m.spans ++ d.1, d.2.1, d.2.2)

/-!
### A small QRegExp-style backtracking regex matcher

Only the features the rule table at lines 91-125 uses: single-character
classes, concatenation, alternation (leftmost alternative preferred),
greedy star with backtracking, capturing groups, and the zero-width
word boundary `\b`.  Matching follows Perl/QRegExp backtracking
semantics; `reIndexIn` mirrors `QRegExp.indexIn` by trying successive
start positions.
-/

/-- Regular expression abstract syntax. -/
inductive RE where
  | eps : RE
  | cset : (Char → Bool) → RE
  | seq : RE → RE → RE
  | alt : RE → RE → RE
  | star : RE → RE
  | grp : Nat → RE → RE
  | wb : RE

/-- Captured groups: (group index, start, stop), most recent first. -/
abbrev Caps := List (Nat × Nat × Nat)

/-- QRegExp's `\w`: letters, digits and underscore (ASCII suffices for
every input considered here). -/
def wordChar (c : Char) : Bool := c.isAlphanum || c == '_'

/-- QRegExp's `\b`: a word/non-word transition (string edges count as
non-word). -/
def isWB (text : List Char) (i : Nat) : Bool :=
  let l := match text.get? (i - 1) with
           | some c => i ≠ 0 && wordChar c
           | none => false
  let r := match text.get? i with
           | some c => wordChar c
           | none => false
  l != r

/-- Structural size of a regex, used only to size the matcher fuel. -/
def reSize : RE → Nat
  | .eps => 1
  | .cset _ => 1
  | .seq a b => reSize a + reSize b + 1
  | .alt a b => reSize a + reSize b + 1
  | .star a => reSize a + 1
  | .grp _ a => reSize a + 1
  | .wb => 1

/-- Backtracking matcher in continuation style.  `mmatch fuel re i caps k`
tries to match `re` at position `i`; on success of a prefix it calls the
continuation `k` with the new position and captures, and backtracks when
`k` fails.  Alternation prefers its left branch; `star` is greedy (tries
one more iteration before stopping) and forbids empty iterations.  The
fuel bounds the call depth, which for these patterns is at most
proportional to `reSize * (length + 1)`. -/
def mmatch (text : List Char) :
    Nat → RE → Nat → Caps → (Nat → Caps → Option (Nat × Caps)) → Option (Nat × Caps)
  | 0, _, _, _, _ => none
  | _ + 1, .eps, i, caps, k => k i caps
  | _ + 1, .cset p, i, caps, k =>
    match text.get? i with
    | some c => if p c then k (i + 1) caps else none
    | none => none
  | fuel + 1, .seq a b, i, caps, k =>
    mmatch text fuel a i caps fun j caps' => mmatch text fuel b j caps' k
  | fuel + 1, .alt a b, i, caps, k =>
    match mmatch text fuel a i caps k with
    | some r => some r
    | none => mmatch text fuel b i caps k
  | fuel + 1, .star a, i, caps, k =>
    match mmatch text fuel a i caps
        (fun j caps' => if i < j then mmatch text fuel (.star a) j caps' k else none) with
    | some r => some r
    | none => k i caps
  | fuel + 1, .grp n a, i, caps, k =>
    mmatch text fuel a i caps fun j caps' => k j ((n, i, j) :: caps')
  | _ + 1, .wb, i, caps, k => if isWB text i then k i caps else none

/-- A successful QRegExp match: match start, match end, captures. -/
structure MatchRes where
  pos : Nat
  stop : Nat
  caps : Caps
  deriving Repr

/-- Try to match `re` exactly at position `i`. -/
def reTryAt (re : RE) (text : List Char) (i : Nat) : Option MatchRes :=
  match mmatch text ((reSize re + 4) * (text.length + 4)) re i []
      (fun j caps => some (j, caps)) with
  | some (j, caps) => some ⟨i, j, caps⟩
  | none => none

/-- Search loop behind `reIndexIn`; fuel bounds the candidate start
positions exactly as in `litIndexInAux`. -/
def reIndexInAux (re : RE) (text : List Char) : Nat → Nat → Option MatchRes
  | 0, _ => none
  | fuel + 1, i =>
    if text.length < i then none
    else
      match reTryAt re text i with
      | some m => some m
      | none => reIndexInAux re text fuel (i + 1)

/-- `QRegExp.indexIn(text, i)`: first position `≥ i` with a match. -/
def reIndexIn (re : RE) (text : List Char) (i : Nat) : Option MatchRes :=
  reIndexInAux re text (text.length + 1 - i) i

/-- `(pattern.pos(nth), len(pattern.cap(nth)))` after a match.  `nth = 0`
is the whole match; otherwise the most recent capture of group `nth`.
Every rule in this file with `nth ≠ 0` has a mandatory group `nth`, so
the `none` case is unreachable for them. -/
def capOf (m : MatchRes) (nth : Nat) : Option (Nat × Nat) :=
  if nth = 0 then some (m.pos, m.stop - m.pos)
  else
    match m.caps.find? (fun t => t.1 == nth) with
    | some (_, a, b) => some (a, b - a)
    | none => none

/-- One compiled single-line rule, as stored in `self.rules`. -/
structure LineRule where
  re : RE
  nth : Nat
  sty : Style

/-- The `while index >= 0` loop of `highlightBlock` (lines 221-228):
take the `nth` capture's position and length, emit that span, and
resume the search at `index + length`.  Each match of these rules has
positive length, so `text.length + 2` fuel is never exhausted. -/
def ruleScanLoop (re : RE) (nth : Nat) (sty : Style) (text : List Char) :
    Nat → Option MatchRes → List Span
  | 0, _ => []
  | _ + 1, none => []
  | fuel + 1, some m =>
    match capOf m nth with
    | some (i, l) => ⟨i, l, sty⟩ :: ruleScanLoop re nth sty text fuel (reIndexIn re text (i + l))
    | none => []

/-- All spans one single-line rule emits on a line. -/
def ruleScan (text : List Char) (r : LineRule) : List Span :=
  ruleScanLoop r.re r.nth r.sty text (text.length + 2) (reIndexIn r.re text 0)

/-- The `for pattern, nth, fmt in self.rules` loop (lines 220-228):
every rule in order, spans concatenated in emission order. -/
def lineScan (rules : List LineRule) (text : List Char) : List Span :=
  match rules with
  | [] => []
  | r :: rs => ruleScan text r ++ lineScan rs text

/-!
### The concrete rule set of `PythonHighlighter.__init__` (lines 82-126)

Each entry mirrors one `LineRule`/`MultiLineRule` of the source, in the
exact order they are appended to `rules`.
-/

/-- The `keywords` class attribute (lines 55-62). -/
def pyKeywords : List (List Char) :=
  [ ['a','n','d'], ['a','s','s','e','r','t'], ['b','r','e','a','k'],
    ['c','l','a','s','s'], ['c','o','n','t','i','n','u','e'], ['d','e','f'],
    ['d','e','l'], ['e','l','i','f'], ['e','l','s','e'],
    ['e','x','c','e','p','t'], ['e','x','e','c'], ['f','i','n','a','l','l','y'],
    ['f','o','r'], ['f','r','o','m'], ['g','l','o','b','a','l'],
    ['i','f'], ['i','m','p','o','r','t'], ['i','n'],
    ['i','s'], ['l','a','m','b','d','a'], ['n','o','t'],
    ['o','r'], ['p','a','s','s'], ['p','r','i','n','t'],
    ['r','a','i','s','e'], ['r','e','t','u','r','n'], ['t','r','y'],
    ['w','h','i','l','e'], ['y','i','e','l','d'],
    ['N','o','n','e'], ['T','r','u','e'], ['F','a','l','s','e'] ]

/-- The `operators` class attribute (lines 65-75), with the regex
escapes removed (each pattern matches the literal operator text). -/
def pyOperators : List (List Char) :=
  [ ['='],
    ['=','='], ['!','='], ['<'], ['<','='], ['>'], ['>','='],
    ['+'], ['-'], ['*'], ['/'], ['/','/'], ['%'], ['*','*'],
    ['+','='], ['-','='], ['*','='], ['/','='], ['%','='],
    ['^'], ['|'], ['&'], ['~'], ['>','>'], ['<','<'] ]

/-- The `braces` class attribute (lines 78-80). -/
def pyBraces : List (List Char) :=
  [ [lbc], [rbc], ['('], [')'], ['['], [']'] ]

/-- A literal regex: the concatenation of single-character matches. -/
def reLit (cs : List Char) : RE :=
  cs.foldr (fun c r => RE.seq (RE.cset (fun d => d == c)) r) RE.eps

/-- `X?` (greedy: presence preferred). -/
def ropt (r : RE) : RE := RE.alt r RE.eps

/-- `X+`. -/
def rplus (r : RE) : RE := RE.seq r (RE.star r)

/-- `\b{kw}\b` (line 93). -/
def kwRE (w : List Char) : RE := RE.seq RE.wb (RE.seq (reLit w) RE.wb)

/-- `[+-]`. -/
def pmC : RE := RE.cset (fun c => c == '+' || c == '-')

/-- `[0-9]`. -/
def digC : RE := RE.cset Char.isDigit

/-- `[lL]`. -/
def ellC : RE := RE.cset (fun c => c == 'l' || c == 'L')

/-- `\b(?:cls|self)\b` (line 106). -/
def clsselfRE : RE :=
  RE.seq RE.wb (RE.seq (RE.alt (reLit ['c','l','s']) (reLit ['s','e','l','f'])) RE.wb)

/-- `\bdef\b\s*(\w+)` (line 108). -/
def defRE : RE :=
  RE.seq RE.wb (RE.seq (reLit ['d','e','f'])
    (RE.seq RE.wb (RE.seq (RE.star (RE.cset Char.isWhitespace))
      (RE.grp 1 (rplus (RE.cset wordChar))))))

/-- `\bclass\b\s*(\w+)` (line 110). -/
def classRE : RE :=
  RE.seq RE.wb (RE.seq (reLit ['c','l','a','s','s'])
    (RE.seq RE.wb (RE.seq (RE.star (RE.cset Char.isWhitespace))
      (RE.grp 1 (rplus (RE.cset wordChar))))))

/-- `\b[+-]?[0-9]+[lL]?\b` (line 112). -/
def numIntRE : RE :=
  RE.seq RE.wb (RE.seq (ropt pmC) (RE.seq (rplus digC) (RE.seq (ropt ellC) RE.wb)))

/-- `[0-9A-Fa-f]`. -/
def hexC : RE :=
  RE.cset (fun c => c.isDigit || ('a' ≤ c && c ≤ 'f') || ('A' ≤ c && c ≤ 'F'))

/-- `\b[+-]?0[xX][0-9A-Fa-f]+[lL]?\b` (line 113). -/
def numHexRE : RE :=
  RE.seq RE.wb (RE.seq (ropt pmC)
    (RE.seq (RE.cset (fun c => c == '0'))
      (RE.seq (RE.cset (fun c => c == 'x' || c == 'X'))
        (RE.seq (rplus hexC) (RE.seq (ropt ellC) RE.wb)))))

/-- `\b[+-]?[0-9]+(?:\.[0-9]+)?(?:[eE][+-]?[0-9]+)?\b` (line 114). -/
def numFloatRE : RE :=
  RE.seq RE.wb (RE.seq (ropt pmC)
    (RE.seq (rplus digC)
      (RE.seq (ropt (RE.seq (RE.cset (fun c => c == '.')) (rplus digC)))
        (RE.seq (ropt (RE.seq (RE.cset (fun c => c == 'e' || c == 'E'))
                        (RE.seq (ropt pmC) (rplus digC))))
          RE.wb))))

/-- `\b_[\w]+\b` (line 116). -/
def privRE : RE :=
  RE.seq RE.wb (RE.seq (RE.cset (fun c => c == '_')) (RE.seq (rplus (RE.cset wordChar)) RE.wb))

/-- A quoted-string pattern such as `"[^"\\]*(\\.[^"\\]*)*"` (lines
118-119), parameterised by the quote character. -/
def quotedRE (q : Char) : RE :=
  RE.seq (RE.cset (fun c => c == q))
    (RE.seq (RE.star (RE.cset (fun c => !(c == q) && !(c == bsc))))
      (RE.seq (RE.star (RE.grp 1
        (RE.seq (RE.cset (fun c => c == bsc))
          (RE.seq (RE.cset (fun _ => true))
            (RE.star (RE.cset (fun c => !(c == q) && !(c == bsc))))))))
        (RE.cset (fun c => c == q))))

/-- `#[^\n]*` (line 121). -/
def commentRE : RE :=
  RE.seq (RE.cset (fun c => c == '#')) (RE.star (RE.cset (fun c => !(c == '\n'))))

/-- `self.rules` after `buildRules`: the keyword, operator and brace
rules followed by the hand-written rules of lines 104-121, in source
order. -/
def pyLineRules : List LineRule :=
  pyKeywords.map (fun w => ⟨kwRE w, 0, Style.keyword⟩)
    ++ pyOperators.map (fun o => ⟨reLit o, 0, Style.operator⟩)
    ++ pyBraces.map (fun b => ⟨reLit b, 0, Style.brace⟩)
    ++ [ ⟨clsselfRE, 0, Style.clsSelf⟩,
         ⟨defRE, 1, Style.defName⟩,
         ⟨classRE, 1, Style.clsName⟩,
         ⟨numIntRE, 0, Style.numbers⟩,
         ⟨numHexRE, 0, Style.numbers⟩,
         ⟨numFloatRE, 0, Style.numbers⟩,
         ⟨privRE, 0, Style.priv⟩,
         ⟨quotedRE dqc, 0, Style.str⟩,
         ⟨quotedRE sqc, 0, Style.str⟩,
         ⟨commentRE, 0, Style.comment⟩ ]

/-- The `"""` rule (line 123). -/
def bqRule : BlockRule := ⟨[dqc, dqc, dqc], [dqc, dqc, dqc], 1, Style.strBlock⟩

/-- The `'''` rule (line 124). -/
def sqRule : BlockRule := ⟨[sqc, sqc, sqc], [sqc, sqc, sqc], 2, Style.strBlock⟩

/-- `self.blockRules` after `buildRules`. -/
def pyBlockRules : List BlockRule := [bqRule, sqRule]

/-- `PythonHighlighter.highlightBlock` (lines 206-230): run the
multi-line rules in order, return early if one reports the line still
open, otherwise run every single-line rule and set state 0.  `prev` is
`previousBlockState()` (the previous line's exit state) and `stale` is
the block's own user state on entry (see the header comment).  Returns
the emitted spans and the block's exit state. -/
def highlightBlock (prev stale : Int) (text : List Char) : List Span × Int :=
  let d := mlDispatch prev text pyBlockRules stale
  if d.2.2 then (d.1, d.2.1) else (d.1 ++ lineScan pyLineRules text, 0)

/-- One `setFormat` call as seen by character `p` of a line of length
`n`: the span recolours `p` when it covers `p` inside the line;
`QSyntaxHighlighter.setFormat` clamps the range to the line and ignores
calls starting at or beyond the line end. -/
def fmtStep (n p : Nat) (acc : Option Style) (sp : Span) : Option Style :=
  if sp.offset < n ∧ sp.offset ≤ p ∧ p < sp.offset + sp.len ∧ p < n
  then some sp.style else acc

/-- The visible style of character `p` of a line of length `n` after a
list of `setFormat` calls: the last covering span wins. -/
def fmtAt (n : Nat) (spans : List Span) (p : Nat) : Option Style :=
  spans.foldl (fmtStep n p) none

/-!
### Models used to state (and refute) individual spec claims

`mlDispatchClaim`/`highlightBlockClaim` follow the words of the spec
claim that the first *matching* multi-line rule wins; they exist only
to be compared against the code's `mlDispatch`/`highlightBlock`.
`buildRules`/`pythonHighlighterInit` model the construction path,
including Python's attribute lookup for the `caseSensitive` read on
line 133.
-/

/-- Modelled from the spec claim (C1): once a MultiLineRule has matched
(resumed, or its start pattern occurs on the line), no later
MultiLineRule is tried for that line, whether the region closed or
stayed open. -/
def mlDispatchClaim (prev : Int) (text : List Char) :
    List BlockRule → Int → List Span × Int × Bool
  | [], cur => ([], cur, false)
  | r :: rs, cur =>
    if prev = r.state ∨ (litIndexIn r.startPat text 0).isSome then
      let m := highlightMultilineBlock prev text r cur
      (m.spans, m.state, m.stillOpen)
    else mlDispatchClaim prev text rs cur

/-- Modelled from the spec claim (C1): `highlightBlock` with
first-match-in-rule-order multi-line dispatch. -/
def highlightBlockClaim (prev stale : Int) (text : List Char) : List Span × Int :=
  let d := mlDispatchClaim prev text pyBlockRules stale
  if d.2.2 then (d.1, d.2.1) else (d.1 ++ lineScan pyLineRules text, 0)

/-- Outcomes construction can raise.  The code can only ever raise
`attributeError` (from the `self.caseSensitive` read on line 133);
`configurationError` exists in this model solely so the spec's claimed
`ConfigurationError` outcome is statable — no code path produces it. -/
inductive PyErr where
  | attributeError (name : String)
  | configurationError
  deriving DecidableEq, Repr

/-- One entry of the `rules` list passed to `buildRules`: a `LineRule`
or `MultiLineRule` namedtuple, with the pattern sources kept abstract
as character lists (`QRegExp` compilation never raises, whatever the
pattern). -/
inductive RuleSpec where
  | line (pattern : List Char) (captureBlock : Nat) (style : Style)
  | multi (startPattern : List Char) (endPattern : List Char) (state : Int) (style : Style)
  deriving DecidableEq, Repr

/-- Attributes defined on the `PythonHighlighter` class object (class
attributes and methods); `caseSensitive` is not among them, and the
`QSyntaxHighlighter` base class does not define it either. -/
def pythonHighlighterClassAttrs : List String :=
  ["keywords", "operators", "braces", "buildRules",
   "highlightMultilineBlock", "highlightBlock"]

/-- Python attribute lookup on `self`: instance dict, then class. -/
def hasAttr (instAttrs : List String) (n : String) : Bool :=
  instAttrs.contains n || pythonHighlighterClassAttrs.contains n

/-- `PythonHighlighter.buildRules` (lines 128-153).  Line 133 reads
`self.caseSensitive`; if that attribute is undefined the method raises
`AttributeError` before touching the rule list.  Otherwise the loop
wraps every pattern in a `QRegExp` (which never raises) and stores the
rules in order — there is no duplicate-region-state check and no
pattern validation of any kind. -/
def buildRules (instAttrs : List String) (ruleList : List RuleSpec) :
    Except PyErr (List RuleSpec) :=
  if hasAttr instAttrs "caseSensitive" then Except.ok ruleList
  else Except.error (PyErr.attributeError "caseSensitive")

/-- `PythonHighlighter.__init__` (lines 82-126): assigns `self.rules`
and `self.blockRules`, builds the local rule list, then calls
`self.buildRules(rules)`.  At the moment of the `self.caseSensitive`
read the instance defines exactly `rules` and `blockRules`. -/
def pythonHighlighterInit (ruleList : List RuleSpec) : Except PyErr (List RuleSpec) :=
  buildRules ["rules", "blockRules"] ruleList

/-!
### Concrete input lines used by the claims
-/

/-- `"""a""" '''b` — a line with a complete double-triple-quoted string
followed by an unterminated triple-single-quote opener. -/
def lineA : List Char := ("\"\"\"a\"\"\" '''b").data

/-- `"""a""" code """b"""` — the spec's two-complete-regions example. -/
def lineB : List Char := ("\"\"\"a\"\"\" code \"\"\"b\"\"\"").data

/-- `x""" """abc` — on a line resumed in state 1 this closes the region
at the first `"""` and then meets a second, unterminated, opener. -/
def lineC : List Char := ("x\"\"\" \"\"\"abc").data

/-- `x = """start of block` — the spec's unterminated-opener example. -/
def lineD : List Char := ("x = \"\"\"start of block").data

/-- A line with no delimiters and no rule matches at all. -/
def lineX : List Char := ['x']

/-- The three numeric-literal lines of the spec. -/
def line42 : List Char := ['4', '2']

def lineHex : List Char := ['0', 'x', '1', 'F']

def lineFloat : List Char := ['3', '.', '1', '4', 'e', '-', '2']

/-- The keyword-boundary lines of the spec. -/
def lineClassify : List Char := ['c', 'l', 'a', 's', 's', 'i', 'f', 'y']

def lineClassFoo : List Char := ['c', 'l', 'a', 's', 's', ' ', 'F', 'o', 'o', ':']

/-- Two `MultiLineRule` entries sharing region state tag 1 (used to
probe the claimed duplicate-tag validation). -/
def dupStateRules : List RuleSpec :=
  [RuleSpec.multi [dqc, dqc, dqc] [dqc, dqc, dqc] 1 Style.strBlock,
   RuleSpec.multi [sqc, sqc, sqc] [sqc, sqc, sqc] 1 Style.strBlock]

/-!
### Lemmas about pattern search and the multi-line loop
-/

theorem litIndexInAux_ge (pat text : List Char) :
    ∀ fuel i j, litIndexInAux pat text fuel i = some j →
      i ≤ j ∧ j + pat.length ≤ text.length := by
  intro fuel
  induction fuel with
  | zero => intro i j h; exact absurd h (by simp [litIndexInAux])
  | succ f ih =>
    intro i j h
    rw [litIndexInAux] at h
    by_cases hlt : text.length < i + pat.length
    · rw [if_pos hlt] at h; exact absurd h (by simp)
    · rw [if_neg hlt] at h
      by_cases hat : litAt pat text i
      · rw [if_pos hat] at h; cases h; omega
      · rw [if_neg hat] at h
        have := ih _ _ h
        omega

theorem litIndexIn_ge (pat text : List Char) (i j : Nat)
    (h : litIndexIn pat text i = some j) : i ≤ j ∧ j + pat.length ≤ text.length :=
  litIndexInAux_ge pat text _ i j h

theorem litIndexIn_none_of_big (pat text : List Char) (i : Nat)
    (h : text.length < i + pat.length) : litIndexIn pat text i = none := by
  rw [litIndexIn]
  cases hf : text.length + 1 - i with
  | zero => rw [litIndexInAux]
  | succ f => rw [litIndexInAux, if_pos h]

theorem getLast?_cons_ne {α : Type} (a : α) (l : List α) (h : l ≠ []) :
    (a :: l).getLast? = l.getLast? := by
  cases l with
  | nil => exact absurd rfl h
  | cons b t => exact List.getLast?_cons_cons

section MlLoopLemmas

variable (text sPat ePat : List Char) (inSt : Int) (sty : Style) (add : Nat)

/-- Every end-pattern search of the loop starts exactly `add` positions
after that iteration's `start_index`, with the single `add` computed
before the loop: the loop never updates the skip length. -/
theorem mlLoop_trace_skip :
    ∀ fuel os cur p, p ∈ (mlLoop text sPat ePat inSt sty add fuel os cur).trace →
      p.2 = p.1 + add := by
  intro fuel
  induction fuel with
  | zero =>
    intro os cur p hp
    cases os <;> simp [mlLoop] at hp
  | succ f ih =>
    intro os cur p hp
    cases os with
    | none => simp [mlLoop] at hp
    | some s =>
      simp only [mlLoop] at hp
      cases h : litIndexIn ePat text (s + add) with
      | some e =>
        rw [h] at hp
        simp only [List.mem_cons] at hp
        rcases hp with rfl | hp
        · rfl
        · exact ih _ _ _ hp
      | none =>
        rw [h] at hp
        simp only [List.mem_cons] at hp
        rcases hp with rfl | hp
        · rfl
        · exact ih _ _ _ hp

/-- The loop emits one span per iteration. -/
theorem mlLoop_len :
    ∀ fuel os cur, (mlLoop text sPat ePat inSt sty add fuel os cur).spans.length
      = (mlLoop text sPat ePat inSt sty add fuel os cur).trace.length := by
  intro fuel
  induction fuel with
  | zero => intro os cur; cases os <;> simp [mlLoop]
  | succ f ih =>
    intro os cur
    cases os with
    | none => simp [mlLoop]
    | some s =>
      simp only [mlLoop]
      cases h : litIndexIn ePat text (s + add) <;> simp [h, ih]

/-- Once the loop body runs, the incoming current-block state is
overwritten and cannot influence the result. -/
theorem mlLoop_cur_eq (f s : Nat) (c c' : Int) :
    mlLoop text sPat ePat inSt sty add (f + 1) (some s) c
      = mlLoop text sPat ePat inSt sty add (f + 1) (some s) c' := by
  simp only [mlLoop]

/-- The state after the loop is the incoming one (loop never ran) or
one of the two values `setCurrentBlockState` is called with. -/
theorem mlLoop_state_cases :
    ∀ fuel os cur, (mlLoop text sPat ePat inSt sty add fuel os cur).state = cur
      ∨ (mlLoop text sPat ePat inSt sty add fuel os cur).state = 0
      ∨ (mlLoop text sPat ePat inSt sty add fuel os cur).state = inSt := by
  intro fuel
  induction fuel with
  | zero => intro os cur; cases os <;> simp [mlLoop]
  | succ f ih =>
    intro os cur
    cases os with
    | none => simp [mlLoop]
    | some s =>
      simp only [mlLoop]
      cases h : litIndexIn ePat text (s + add) with
      | some e =>
        simp only [h]
        rcases ih (litIndexIn sPat text (s + (e - s + add + ePat.length))) 0 with h' | h' | h' <;>
          simp [h']
      | none =>
        simp only [h]
        rcases ih (litIndexIn sPat text (s + (text.length - s + add))) inSt with h' | h' | h' <;>
          simp [h']

/-- If the loop's final end-pattern search failed, the line ends still
inside the region: the final state is `in_state` and the final
`setFormat` call starts at that iteration's `start_index` and reaches
(at least) the end of the line. -/
theorem mlLoop_open_last (hsp : sPat ≠ []) :
    ∀ fuel os cur s q,
      (∀ x, os = some x → x ≤ text.length) →
      (mlLoop text sPat ePat inSt sty add fuel os cur).trace.getLast? = some (s, q) →
      litIndexIn ePat text (s + add) = none →
      (mlLoop text sPat ePat inSt sty add fuel os cur).state = inSt
        ∧ (mlLoop text sPat ePat inSt sty add fuel os cur).spans.getLast?
            = some ⟨s, text.length - s + add, sty⟩
        ∧ s ≤ text.length := by
  intro fuel
  induction fuel with
  | zero =>
    intro os cur s q _ htr _
    cases os <;> simp [mlLoop] at htr
  | succ f ih =>
    intro os cur s q hos htr hend
    cases os with
    | none => simp [mlLoop] at htr
    | some s0 =>
      have hs0 : s0 ≤ text.length := hos s0 rfl
      simp only [mlLoop] at htr ⊢
      cases h : litIndexIn ePat text (s0 + add) with
      | some e =>
        simp only [h] at htr ⊢
        by_cases hrt :
            (mlLoop text sPat ePat inSt sty add f
              (litIndexIn sPat text (s0 + (e - s0 + add + ePat.length))) 0).trace = []
        · rw [hrt] at htr
          simp only [List.getLast?_singleton, Option.some.injEq, Prod.mk.injEq] at htr
          obtain ⟨rfl, rfl⟩ := htr
          exact absurd h (by simp [hend])
        · rw [getLast?_cons_ne _ _ hrt] at htr
          have hos' : ∀ x,
              litIndexIn sPat text (s0 + (e - s0 + add + ePat.length)) = some x →
                x ≤ text.length := by
            intro x hx
            have := litIndexIn_ge _ _ _ _ hx
            omega
          obtain ⟨h1, h2, h3⟩ := ih _ _ _ _ hos' htr hend
          refine ⟨h1, ?_, h3⟩
          have hsl :
              (mlLoop text sPat ePat inSt sty add f
                (litIndexIn sPat text (s0 + (e - s0 + add + ePat.length))) 0).spans ≠ [] := by
            intro hnil
            have hlen := mlLoop_len text sPat ePat inSt sty add f
              (litIndexIn sPat text (s0 + (e - s0 + add + ePat.length))) 0
            have hlen0 :
                (mlLoop text sPat ePat inSt sty add f
                  (litIndexIn sPat text (s0 + (e - s0 + add + ePat.length))) 0).trace.length
                  = 0 := by
              rw [← hlen, hnil]
              rfl
            exact hrt (List.length_eq_zero.mp hlen0)
          rw [getLast?_cons_ne _ _ hsl]
          exact h2
      | none =>
        simp only [h] at htr ⊢
        have hnone : litIndexIn sPat text (s0 + (text.length - s0 + add)) = none := by
          apply litIndexIn_none_of_big
          have : 0 < sPat.length := List.length_pos.mpr hsp
          omega
        rw [hnone] at htr ⊢
        simp only [mlLoop] at htr ⊢
        simp only [List.getLast?_singleton, Option.some.injEq, Prod.mk.injEq] at htr
        obtain ⟨rfl, rfl⟩ := htr
        exact ⟨by trivial, by trivial, hs0⟩

end MlLoopLemmas

theorem mem_of_getLast? {α : Type} : ∀ {l : List α} {a : α}, l.getLast? = some a → a ∈ l := by
  intro l
  induction l with
  | nil => intro a h; exact absurd h (by simp)
  | cons b t ih =>
    intro a h
    cases t with
    | nil =>
      simp only [List.getLast?_singleton, Option.some.injEq] at h
      simp [h]
    | cons c t' =>
      rw [List.getLast?_cons_cons] at h
      exact List.mem_cons_of_mem b (ih h)

theorem fmtAt_fold_last (n p : Nat) :
    ∀ (l : List Span) (acc : Option Style) (sp : Span), l.getLast? = some sp →
      sp.offset < n → sp.offset ≤ p → p < sp.offset + sp.len → p < n →
      l.foldl (fmtStep n p) acc = some sp.style := by
  intro l
  induction l with
  | nil => intro acc sp h; exact absurd h (by simp)
  | cons a t ih =>
    intro acc sp h h1 h2 h3 h4
    cases t with
    | nil =>
      simp only [List.getLast?_singleton, Option.some.injEq] at h
      subst h
      simp [fmtStep, h1, h2, h3, h4]
    | cons b t' =>
      rw [List.getLast?_cons_cons] at h
      rw [List.foldl_cons]
      exact ih _ _ h h1 h2 h3 h4

/-- `fmtAt` sees the style of the last span when that span covers the
character: the last `setFormat` call wins. -/
theorem fmtAt_getLast (n p : Nat) (l : List Span) (sp : Span) (h : l.getLast? = some sp)
    (h1 : sp.offset < n) (h2 : sp.offset ≤ p) (h3 : p < sp.offset + sp.len) (h4 : p < n) :
    fmtAt n l p = some sp.style :=
  fmtAt_fold_last n p l none sp h h1 h2 h3 h4

/-!
### Lemmas about `highlightMultilineBlock` and the rule dispatch
-/

/-- The return value of `highlightMultilineBlock` is literally the
comparison `currentBlockState() == in_state`. -/
theorem hmb_stillOpen_eq (prev : Int) (text : List Char) (r : BlockRule) (cur : Int) :
    (highlightMultilineBlock prev text r cur).stillOpen
      = ((highlightMultilineBlock prev text r cur).state == r.state) := rfl

/-- When a rule neither resumes nor finds its start delimiter, the call
leaves everything untouched and its return value compares the *stale*
current state with the rule's tag. -/
theorem hmb_not_applied (prev : Int) (text : List Char) (r : BlockRule) (cur : Int)
    (h1 : prev ≠ r.state) (h2 : litIndexIn r.startPat text 0 = none) :
    highlightMultilineBlock prev text r cur = ⟨[], [], cur, cur == r.state⟩ := by
  simp [highlightMultilineBlock, h1, h2]

/-- When a rule resumes or finds its start delimiter, the loop body runs
and the incoming current-block state cannot influence the call. -/
theorem hmb_cur_irrel (prev : Int) (text : List Char) (r : BlockRule) (c c' : Int)
    (happ : prev = r.state ∨ (litIndexIn r.startPat text 0).isSome) :
    highlightMultilineBlock prev text r c = highlightMultilineBlock prev text r c' := by
  have h2 : text.length + 2 = text.length + 1 + 1 := rfl
  by_cases hres : prev = r.state
  · simp only [highlightMultilineBlock, if_pos hres, h2]
    rw [mlLoop_cur_eq text r.startPat r.endPat r.state r.style 0 (text.length + 1) 0 c c']
  · rcases happ with h | hsome
    · exact absurd h hres
    · obtain ⟨s0, hs⟩ := Option.isSome_iff_exists.mp hsome
      simp only [highlightMultilineBlock, if_neg hres, hs, h2]
      rw [mlLoop_cur_eq text r.startPat r.endPat r.state r.style r.startPat.length
        (text.length + 1) s0 c c']

/-- If the final end-pattern search of an applied rule failed, the call
reports the region still open, with the final span running from that
iteration's start offset to (at least) the end of the line. -/
theorem hmb_open_last (prev cur : Int) (text : List Char) (r : BlockRule)
    (hsp : r.startPat ≠ []) (s q : Nat)
    (htr : (highlightMultilineBlock prev text r cur).trace.getLast? = some (s, q))
    (hend : litIndexIn r.endPat text q = none) :
    (highlightMultilineBlock prev text r cur).state = r.state
      ∧ (highlightMultilineBlock prev text r cur).stillOpen = true
      ∧ (highlightMultilineBlock prev text r cur).spans.getLast?
          = some ⟨s, text.length - s
              + (if prev = r.state then 0 else r.startPat.length), r.style⟩
      ∧ s ≤ text.length := by
  by_cases hres : prev = r.state
  · simp only [highlightMultilineBlock, if_pos hres] at htr ⊢
    have hq : q = s + 0 := by
      have := mlLoop_trace_skip text r.startPat r.endPat r.state r.style 0
        (text.length + 2) (some 0) cur (s, q) (mem_of_getLast? htr)
      simpa using this
    have hend' : litIndexIn r.endPat text (s + 0) = none := by
      rw [← hq]
      exact hend
    obtain ⟨h1, h2, h3⟩ := mlLoop_open_last text r.startPat r.endPat r.state r.style 0 hsp
      (text.length + 2) (some 0) cur s q
      (by intro x hx; cases hx; omega) htr hend'
    refine ⟨h1, ?_, ?_, h3⟩
    · simp [h1]
    · exact h2
  · cases hs : litIndexIn r.startPat text 0 with
    | none => simp [highlightMultilineBlock, hres, hs] at htr
    | some s0 =>
      simp only [highlightMultilineBlock, if_neg hres, hs] at htr ⊢
      have hq : q = s + r.startPat.length := by
        have := mlLoop_trace_skip text r.startPat r.endPat r.state r.style r.startPat.length
          (text.length + 2) (some s0) cur (s, q) (mem_of_getLast? htr)
        simpa using this
      have hend' : litIndexIn r.endPat text (s + r.startPat.length) = none := by
        rw [← hq]
        exact hend
      obtain ⟨h1, h2, h3⟩ := mlLoop_open_last text r.startPat r.endPat r.state r.style
        r.startPat.length hsp (text.length + 2) (some s0) cur s q
        (by
          intro x hx
          cases hx
          have := litIndexIn_ge r.startPat text 0 s0 hs
          omega) htr hend'
      refine ⟨h1, ?_, ?_, h3⟩
      · simp [h1]
      · exact h2

/-- If every rule's tag differs from both incoming stale states, the
dispatch's spans and break flag do not depend on the stale state, and
neither does the exit state when some rule broke the loop. -/
theorem mlDispatch_cur_irrel (prev : Int) (text : List Char) :
    ∀ (rs : List BlockRule) (c c' : Int),
      (∀ r ∈ rs, c ≠ r.state) → (∀ r ∈ rs, c' ≠ r.state) →
      (mlDispatch prev text rs c).1 = (mlDispatch prev text rs c').1
        ∧ (mlDispatch prev text rs c).2.2 = (mlDispatch prev text rs c').2.2
        ∧ ((mlDispatch prev text rs c).2.2 = true →
            (mlDispatch prev text rs c).2.1 = (mlDispatch prev text rs c').2.1) := by
  intro rs
  induction rs with
  | nil =>
    intro c c' _ _
    refine ⟨rfl, rfl, fun h => absurd h (by simp [mlDispatch])⟩
  | cons r rs ih =>
    intro c c' hc hc'
    by_cases happ : prev = r.state ∨ (litIndexIn r.startPat text 0).isSome
    · have he := hmb_cur_irrel prev text r c c' happ
      simp [mlDispatch, he]
    · push_neg at happ
      obtain ⟨hres, hsome⟩ := happ
      have hnone : litIndexIn r.startPat text 0 = none := by
        cases h : litIndexIn r.startPat text 0 with
        | none => rfl
        | some v => rw [h] at hsome; simp at hsome
      rw [mlDispatch, mlDispatch, hmb_not_applied prev text r c hres hnone,
        hmb_not_applied prev text r c' hres hnone]
      have hco : (c == r.state) = false := by
        simp only [beq_eq_false_iff_ne, ne_eq]
        exact hc r (List.mem_cons_self r rs)
      have hco' : (c' == r.state) = false := by
        simp only [beq_eq_false_iff_ne, ne_eq]
        exact hc' r (List.mem_cons_self r rs)
      simp only [hco, hco', Bool.false_eq_true, if_false]
      obtain ⟨i1, i2, i3⟩ := ih c c'
        (fun r' hr' => hc r' (List.mem_cons_of_mem r hr'))
        (fun r' hr' => hc' r' (List.mem_cons_of_mem r hr'))
      exact ⟨by rw [i1], i2, fun hb => i3 (by simpa using hb)⟩

/-- When the dispatch loop broke, the exit state is the tag of one of
the rules in the list. -/
theorem mlDispatch_open_state (prev : Int) (text : List Char) :
    ∀ (rs : List BlockRule) (c : Int), (mlDispatch prev text rs c).2.2 = true →
      ∃ r ∈ rs, (mlDispatch prev text rs c).2.1 = r.state := by
  intro rs
  induction rs with
  | nil => intro c h; exact absurd h (by simp [mlDispatch])
  | cons r rs ih =>
    intro c h
    by_cases hso : (highlightMultilineBlock prev text r c).stillOpen
    · refine ⟨r, List.mem_cons_self r rs, ?_⟩
      simp only [mlDispatch, if_pos hso]
      have := hmb_stillOpen_eq prev text r c
      rw [hso] at this
      exact (beq_iff_eq.mp this.symm)
    · simp only [mlDispatch, if_neg hso] at h ⊢
      obtain ⟨r', hr', hst⟩ := ih ((highlightMultilineBlock prev text r c).state) h
      exact ⟨r', List.mem_cons_of_mem r hr', hst⟩

/-!
### The claims
-/

/-- Claim C1 (amended): a MultiLineRule stops the multi-line dispatch
only when it reports the line *still open* (`matched_multiline` true);
if the first rule matched but closed its region (or did not match at
all), the second rule is still tried on the same line, and the
single-line scan then runs only if the second rule also left the line
closed. -/
theorem claim1_theorem (prev stale : Int) (text : List Char)
    (h : (highlightMultilineBlock prev text bqRule stale).stillOpen = false) :
    highlightBlock prev stale text =
      (if (highlightMultilineBlock prev text sqRule
            (highlightMultilineBlock prev text bqRule stale).state).stillOpen
       then ((highlightMultilineBlock prev text bqRule stale).spans
              ++ (highlightMultilineBlock prev text sqRule
                   (highlightMultilineBlock prev text bqRule stale).state).spans,
             (highlightMultilineBlock prev text sqRule
               (highlightMultilineBlock prev text bqRule stale).state).state)
       else ((highlightMultilineBlock prev text bqRule stale).spans
              ++ ((highlightMultilineBlock prev text sqRule
                    (highlightMultilineBlock prev text bqRule stale).state).spans
                   ++ lineScan pyLineRules text), 0)) := by
  by_cases h2 : (highlightMultilineBlock prev text sqRule
      (highlightMultilineBlock prev text bqRule stale).state).stillOpen = true
  · simp [highlightBlock, pyBlockRules, mlDispatch, h, h2]
  · simp [highlightBlock, pyBlockRules, mlDispatch, h, h2]

/-- Claim C2 (amended): for stale current-block states that are not a
registered region tag, highlighting is a function of the incoming
previous-block state and the text alone — the stale state cannot leak
into the result. -/
theorem claim2_theorem (prev s1 s2 : Int) (text : List Char)
    (h11 : s1 ≠ 1) (h12 : s1 ≠ 2) (h21 : s2 ≠ 1) (h22 : s2 ≠ 2) :
    highlightBlock prev s1 text = highlightBlock prev s2 text := by
  have hc1 : ∀ r ∈ pyBlockRules, s1 ≠ r.state := by
    intro r hr
    rcases (by simpa [pyBlockRules] using hr : r = bqRule ∨ r = sqRule) with rfl | rfl
    · simpa [bqRule] using h11
    · simpa [sqRule] using h12
  have hc2 : ∀ r ∈ pyBlockRules, s2 ≠ r.state := by
    intro r hr
    rcases (by simpa [pyBlockRules] using hr : r = bqRule ∨ r = sqRule) with rfl | rfl
    · simpa [bqRule] using h21
    · simpa [sqRule] using h22
  obtain ⟨e1, e2, e3⟩ := mlDispatch_cur_irrel prev text pyBlockRules s1 s2 hc1 hc2
  simp only [highlightBlock]
  by_cases hb : (mlDispatch prev text pyBlockRules s1).2.2 = true
  · have hb' : (mlDispatch prev text pyBlockRules s2).2.2 = true := by rw [← e2]; exact hb
    rw [if_pos hb, if_pos hb', e1, e3 hb]
  · have hb' : ¬ (mlDispatch prev text pyBlockRules s2).2.2 = true := by rw [← e2]; exact hb
    rw [if_neg hb, if_neg hb', e1]

/-- Claim C3 (amended): when the end-pattern search of a loop iteration
succeeds, the emitted span starts at that iteration's `start_index` and
its length is the claimed `(end offset + end length - start offset)`
PLUS the loop's fixed skip `add` — i.e. a resumed closure (`add = 0`)
covers exactly the claimed range, while a freshly opened closure
overshoots the closing delimiter by the opener's length. -/
theorem claim3_theorem (text sPat ePat : List Char) (inSt : Int) (sty : Style)
    (add fuel s : Nat) (cur : Int) (e : Nat)
    (he : litIndexIn ePat text (s + add) = some e) :
    (mlLoop text sPat ePat inSt sty add (fuel + 1) (some s) cur).spans.head?
      = some ⟨s, (e + ePat.length - s) + add, sty⟩ := by
  have hse := litIndexIn_ge ePat text (s + add) e he
  have hlen : e - s + add + ePat.length = e + ePat.length - s + add := by omega
  simp only [mlLoop, he, List.head?_cons, Option.some.injEq, hlen]

/-- Claim C4 (amended): every end-pattern search of
`highlightMultilineBlock` begins at `start_index + add`, where `add` is
computed once per line — `0` when the line resumed an open region and
the start match's length otherwise — and is reused unchanged for every
repetition of the start/end loop; in particular later fresh regions on
a resumed line also get skip `0`, not the start match's length. -/
theorem claim4_theorem (prev : Int) (text : List Char) (r : BlockRule) (cur : Int)
    (p : Nat × Nat) (hp : p ∈ (highlightMultilineBlock prev text r cur).trace) :
    p.2 = p.1 + (if prev = r.state then 0 else r.startPat.length) := by
  by_cases hres : prev = r.state
  · simp only [highlightMultilineBlock, if_pos hres] at hp
    rw [if_pos hres]
    exact mlLoop_trace_skip text r.startPat r.endPat r.state r.style 0 _ _ _ p hp
  · rw [if_neg hres]
    cases hs : litIndexIn r.startPat text 0 with
    | none => simp [highlightMultilineBlock, hres, hs] at hp
    | some s0 =>
      simp only [highlightMultilineBlock, if_neg hres, hs] at hp
      exact mlLoop_trace_skip text r.startPat r.endPat r.state r.style
        r.startPat.length _ _ _ p hp

/-- Claim C5 (amended): `buildRules` performs no validation at all — it
never fails with a configuration error, for any rule list (duplicate
region-state tags included) and any attribute environment; the only
failure it can produce is the `AttributeError` from the undefined
`caseSensitive` read. -/
theorem claim5_theorem (instAttrs : List String) (rl : List RuleSpec) :
    buildRules instAttrs rl ≠ Except.error PyErr.configurationError := by
  unfold buildRules
  by_cases h : hasAttr instAttrs "caseSensitive" <;> simp [h]

/-- Claim C7: constructing the highlighter fails.  `buildRules` reads
`self.caseSensitive`, an attribute assigned nowhere (not in `__init__`,
not on the class), so `__init__` raises `AttributeError` for every rule
list — the case-sensitivity flag is never applied to anything. -/
theorem claim7_theorem (rl : List RuleSpec) :
    pythonHighlighterInit rl = Except.error (PyErr.attributeError "caseSensitive") := rfl

/-- Claim C10: the exit state of `highlightBlock` is always `0` or one
of the registered region tags `1`, `2` — for every text, every incoming
previous-block state and every stale current-block state. -/
theorem claim10_theorem (prev stale : Int) (text : List Char) :
    (highlightBlock prev stale text).2 = 0 ∨ (highlightBlock prev stale text).2 = 1
      ∨ (highlightBlock prev stale text).2 = 2 := by
  simp only [highlightBlock]
  by_cases hb : (mlDispatch prev text pyBlockRules stale).2.2 = true
  · rw [if_pos hb]
    obtain ⟨r, hr, hst⟩ := mlDispatch_open_state prev text pyBlockRules stale hb
    rcases (by simpa [pyBlockRules] using hr : r = bqRule ∨ r = sqRule) with rfl | rfl
    · right; left; simpa [bqRule] using hst
    · right; right; simpa [sqRule] using hst
  · rw [if_neg hb]
    left
    rfl

/-- Claim C6: whenever an applied multi-line rule's end pattern is not
found (the final end search of its loop fails), the region stays open:
the exit state is the rule's `regionState`, the call reports the line
still open, the final span runs from the region's start offset and
covers (after Qt's clamping) every character from that offset to the
end of the line, and once the dispatch saw such a rule,
`highlightBlock` returns early — no single-line rule is evaluated. -/
theorem claim6_theorem (prev stale : Int) (text : List Char) (r : BlockRule)
    (hr : r ∈ pyBlockRules) (s q : Nat)
    (htr : (highlightMultilineBlock prev text r stale).trace.getLast? = some (s, q))
    (hend : litIndexIn r.endPat text q = none) :
    (highlightMultilineBlock prev text r stale).state = r.state
      ∧ (highlightMultilineBlock prev text r stale).stillOpen = true
      ∧ (highlightMultilineBlock prev text r stale).spans.getLast?
          = some ⟨s, text.length - s
              + (if prev = r.state then 0 else r.startPat.length), r.style⟩
      ∧ (∀ p, s ≤ p → p < text.length →
          fmtAt text.length (highlightMultilineBlock prev text r stale).spans p
            = some r.style)
      ∧ ((mlDispatch prev text pyBlockRules stale).2.2 = true →
          highlightBlock prev stale text
            = ((mlDispatch prev text pyBlockRules stale).1,
               (mlDispatch prev text pyBlockRules stale).2.1)) := by
  have hsp : r.startPat ≠ [] := by
    rcases (by simpa [pyBlockRules] using hr : r = bqRule ∨ r = sqRule) with rfl | rfl <;>
      simp [bqRule, sqRule]
  obtain ⟨h1, h2, h3, h4⟩ := hmb_open_last prev stale text r hsp s q htr hend
  refine ⟨h1, h2, h3, ?_, ?_⟩
  · intro p hp1 hp2
    apply fmtAt_getLast text.length p _ _ h3
    · show s < text.length
      omega
    · exact hp1
    · show p < s + (text.length - s + (if prev = r.state then 0 else r.startPat.length))
      by_cases hres : prev = r.state
      · rw [if_pos hres]
        omega
      · rw [if_neg hres]
        omega
    · exact hp2
  · intro hb
    simp [highlightBlock, hb]

/-- Claim C1 counterexample: on the line `"""a""" '''b` with incoming
state 0 the first rule (`"""`, tag 1) matches and closes, yet the
second rule (`'''`, tag 2) is still tried and opens a region — the code
exits with state 2, while the claimed first-match-wins dispatch
(`highlightBlockClaim`) would stop after the first rule and exit with
state 0. -/
theorem claim1_counterexample :
    (highlightBlock 0 (-1) lineA).2 = 2 ∧ (highlightBlockClaim 0 (-1) lineA).2 = 0 := by
  decide

/-- Claim C1 witness: the amended theorem applied to the same line. -/
theorem claim1_witness :
    (highlightMultilineBlock 0 lineA bqRule (-1)).stillOpen = false
    ∧ highlightBlock 0 (-1) lineA =
      (if (highlightMultilineBlock 0 lineA sqRule
            (highlightMultilineBlock 0 lineA bqRule (-1)).state).stillOpen
       then ((highlightMultilineBlock 0 lineA bqRule (-1)).spans
              ++ (highlightMultilineBlock 0 lineA sqRule
                   (highlightMultilineBlock 0 lineA bqRule (-1)).state).spans,
             (highlightMultilineBlock 0 lineA sqRule
               (highlightMultilineBlock 0 lineA bqRule (-1)).state).state)
       else ((highlightMultilineBlock 0 lineA bqRule (-1)).spans
              ++ ((highlightMultilineBlock 0 lineA sqRule
                    (highlightMultilineBlock 0 lineA bqRule (-1)).state).spans
                   ++ lineScan pyLineRules lineA), 0)) :=
  ⟨by decide, claim1_theorem 0 (-1) lineA (by decide)⟩

/-- Claim C2 counterexample: the line `x` (no delimiters at all) with
the same incoming previous-block state 0 produces different results
depending on the block's stale current state: a stale state 1 makes the
first rule return `True` (its loop never ran, so
`currentBlockState() == in_state` reads the stale value) and the block
exits in state 1 with no single-line scan, while a fresh block (stale
`-1`) exits in state 0 — the output is NOT a function of
(incoming state, text) alone. -/
theorem claim2_counterexample :
    highlightBlock 0 1 lineX ≠ highlightBlock 0 (-1) lineX := by decide

/-- Claim C2 witness: the amended determinism theorem applied at
stale states 0 and -1. -/
theorem claim2_witness :
    ((0 : Int) ≠ 1 ∧ (0 : Int) ≠ 2 ∧ (-1 : Int) ≠ 1 ∧ (-1 : Int) ≠ 2)
    ∧ highlightBlock 0 0 lineX = highlightBlock 0 (-1) lineX :=
  ⟨⟨by decide, by decide, by decide, by decide⟩,
    claim2_theorem 0 0 (-1) lineX (by decide) (by decide) (by decide) (by decide)⟩

/-- Claim C3 counterexample: on `"""a""" code """b"""` (incoming state
0) the first region's start match is at 0 and its end match at 4 with
length 3, so the claim requires a span of length `4 + 3 - 0 = 7`; the
code emits spans of length 10 (`end - start + add + matchedLength` with
`add = 3`), so the first span covers `"""a""" co` — three characters
beyond the quoted region.  The exit state 0 part of the claim does
hold. -/
theorem claim3_counterexample :
    (highlightBlock 0 (-1) lineB).2 = 0
    ∧ ((highlightBlock 0 (-1) lineB).1.filter (fun sp => sp.style == Style.strBlock))
        = [⟨0, 10, Style.strBlock⟩, ⟨13, 10, Style.strBlock⟩]
    ∧ litIndexIn bqRule.startPat lineB 0 = some 0
    ∧ litIndexIn bqRule.endPat lineB 3 = some 4
    ∧ (10 : Nat) ≠ 4 + 3 - 0 := by decide

/-- Claim C3 witness: the amended span-length formula applied to the
first region of the same line (`add = 3`, start 0, end match 4). -/
theorem claim3_witness :
    litIndexIn bqRule.endPat lineB (0 + 3) = some 4
    ∧ (mlLoop lineB bqRule.startPat bqRule.endPat 1 Style.strBlock 3
        (lineB.length + 1 + 1) (some 0) (-1)).spans.head?
        = some ⟨0, (4 + bqRule.endPat.length - 0) + 3, Style.strBlock⟩ :=
  ⟨by decide,
    claim3_theorem lineB bqRule.startPat bqRule.endPat 1 Style.strBlock 3
      (lineB.length + 1) 0 (-1) 4 (by decide)⟩

/-- Claim C4 counterexample: resuming state 1 on `x""" """abc`, the
second loop iteration freshly starts a region at offset 5 (the start
pattern matches there with length 3), but its end search begins at
`5 + 0 = 5`, not at `5 + 3` as the claim requires — so the opener
matches itself as the closer and the line exits closed (state 0),
whereas under the claimed skip the trailing `"""abc` would leave the
region open. -/
theorem claim4_counterexample :
    (highlightMultilineBlock 1 lineC bqRule (-1)).trace = [(0, 0), (5, 5)]
    ∧ litIndexIn bqRule.startPat lineC 5 = some 5
    ∧ (5 : Nat) ≠ 5 + 3
    ∧ (highlightMultilineBlock 1 lineC bqRule (-1)).state = 0 := by decide

/-- Claim C4 witness: the amended fixed-skip theorem applied to the
second iteration of the same resumed line. -/
theorem claim4_witness :
    (5, 5) ∈ (highlightMultilineBlock 1 lineC bqRule (-1)).trace
    ∧ (5, 5).2 = (5, 5).1 + (if (1 : Int) = bqRule.state then 0 else bqRule.startPat.length) :=
  ⟨by decide, claim4_theorem 1 lineC bqRule (-1) (5, 5) (by decide)⟩

/-- Claim C5 counterexample: a rule list whose two multi-line rules
share region-state tag 1 is accepted verbatim by `buildRules` when the
`caseSensitive` attribute is readable, and when it is not, the failure
is an `AttributeError` — in neither case a `ConfigurationError`. -/
theorem claim5_counterexample :
    buildRules ["rules", "blockRules", "caseSensitive"] dupStateRules
        = Except.ok dupStateRules
    ∧ buildRules ["rules", "blockRules"] dupStateRules
        = Except.error (PyErr.attributeError "caseSensitive")
    ∧ PyErr.attributeError "caseSensitive" ≠ PyErr.configurationError :=
  ⟨rfl, rfl, by decide⟩

/-- Claim C6 witness: the unterminated opener `x = """start of block`
with incoming state 0 — the `"""` rule applies at offset 4, its end
search (from 7) fails, and the theorem's conclusions hold there. -/
theorem claim6_witness :
    (bqRule ∈ pyBlockRules
      ∧ (highlightMultilineBlock 0 lineD bqRule (-1)).trace.getLast? = some (4, 7)
      ∧ litIndexIn bqRule.endPat lineD 7 = none)
    ∧ ((highlightMultilineBlock 0 lineD bqRule (-1)).state = bqRule.state
      ∧ (highlightMultilineBlock 0 lineD bqRule (-1)).stillOpen = true
      ∧ (highlightMultilineBlock 0 lineD bqRule (-1)).spans.getLast?
          = some ⟨4, lineD.length - 4
              + (if (0 : Int) = bqRule.state then 0 else bqRule.startPat.length),
              bqRule.style⟩
      ∧ (∀ p, 4 ≤ p → p < lineD.length →
          fmtAt lineD.length (highlightMultilineBlock 0 lineD bqRule (-1)).spans p
            = some bqRule.style)
      ∧ ((mlDispatch 0 lineD pyBlockRules (-1)).2.2 = true →
          highlightBlock 0 (-1) lineD
            = ((mlDispatch 0 lineD pyBlockRules (-1)).1,
               (mlDispatch 0 lineD pyBlockRules (-1)).2.1))) :=
  ⟨⟨by decide, by decide, by decide⟩,
    claim6_theorem 0 (-1) lineD bqRule (by decide) 4 7 (by decide) (by decide)⟩

/-- Claim C8 counterexample: the line `42` produces two numeric-style
spans (the integer rule and the int/float rule both match the full
literal), not "exactly one" as claimed. -/
theorem claim8_counterexample :
    ¬ ((highlightBlock 0 (-1) line42).1.filter
        (fun sp => sp.style == Style.numbers)).length = 1 := by decide

/-- Claim C8 (amended): outside any multi-line region, `0x1F`, `42` and
`3.14e-2` produce one, two and three numeric-style spans respectively
(the integer rule also matches the `3` and `-2` fragments of
`3.14e-2`); after last-write-wins the visible numeric styling covers
exactly the full literal in each case, with no fragmentation, and each
line exits in state 0. -/
theorem claim8_theorem :
    ((highlightBlock 0 (-1) lineHex).1.filter (fun sp => sp.style == Style.numbers))
        = [⟨0, 4, Style.numbers⟩]
    ∧ ((highlightBlock 0 (-1) line42).1.filter (fun sp => sp.style == Style.numbers))
        = [⟨0, 2, Style.numbers⟩, ⟨0, 2, Style.numbers⟩]
    ∧ ((highlightBlock 0 (-1) lineFloat).1.filter (fun sp => sp.style == Style.numbers))
        = [⟨0, 1, Style.numbers⟩, ⟨5, 2, Style.numbers⟩, ⟨0, 7, Style.numbers⟩]
    ∧ (∀ p, p < 4 → fmtAt 4 (highlightBlock 0 (-1) lineHex).1 p = some Style.numbers)
    ∧ (∀ p, p < 2 → fmtAt 2 (highlightBlock 0 (-1) line42).1 p = some Style.numbers)
    ∧ (∀ p, p < 7 → fmtAt 7 (highlightBlock 0 (-1) lineFloat).1 p = some Style.numbers)
    ∧ (highlightBlock 0 (-1) lineHex).2 = 0
    ∧ (highlightBlock 0 (-1) line42).2 = 0
    ∧ (highlightBlock 0 (-1) lineFloat).2 = 0 := by decide

/-- Claim C9: on `classify` no rule matches at all (in particular the
`class` keyword rule produces no span), and on `class Foo:` the token
`class` is visibly keyword-styled while `Foo` is visibly styled with
the class-name style via the capture-group-1 rule — two distinct
styles. -/
theorem claim9_theorem :
    highlightBlock 0 (-1) lineClassify = ([], 0)
    ∧ (highlightBlock 0 (-1) lineClassFoo).1
        = [⟨0, 5, Style.keyword⟩, ⟨6, 3, Style.clsName⟩]
    ∧ (∀ p, p < 5 → fmtAt 10 (highlightBlock 0 (-1) lineClassFoo).1 p = some Style.keyword)
    ∧ (∀ p, p < 9 → 6 ≤ p →
        fmtAt 10 (highlightBlock 0 (-1) lineClassFoo).1 p = some Style.clsName)
    ∧ Style.keyword ≠ Style.clsName := by decide
